import Mathlib

/-!
Verification of the jett HTTP micro-framework (saurabh0719/jett).

This development shallowly embeds the parts of `jett.go` and
`middleware/` that carry the specification's invariants:

* the middleware-chain composition performed by `Router.Handle`
  (two downward index loops wrapping a terminal handler);
* the Go-slice semantics behind `Router.Use` / `Router.Subrouter`
  (a subrouter receives the parent's slice header, sharing the
  backing array; `append` reuses spare capacity in place);
* the path join of `Router.getFullPath` (string concatenation
  followed by the external canonicalizer `httprouter.CleanPath`);
* the shutdown tail of `Router.runServer` (deferred cleanup loop,
  drain, fatal-error policy, signal/context trigger race);
* the `RequestID` middleware (propagate-or-mint with an atomically
  incremented `uint64` counter formatted as `%s-%06d`).

The file lists all definitions first, then all theorems.
-/

namespace Jett

/- ==================================================================
DEFINITIONS
================================================================== -/

/- ------------------------------------------------------------------
Middleware chain composition (`Router.Handle`, jett.go lines 195-212).

A middleware is a function from handler to handler
(Go: `func(http.Handler) http.Handler`).  The Go loop

  for i := len(mws) - 1; i >= 0; i-- { handler = mws[i](handler) }

wraps the current handler with `mws[len-1]` first and `mws[0]` last,
so `mws[0]` ends up outermost.  `applyStack` is that loop.
------------------------------------------------------------------ -/

def applyStack {H : Type} (mws : List (H → H)) (h : H) : H :=
  match mws with
  | [] => h
  | m :: rest => m (applyStack rest h)

/-- Composition done by `Router.Handle`: it first folds the route-level
middleware (the variadic argument) around the handler, then the
router-level stack, so the router stack is outermost. -/
def handleCompose {H : Type} (routerMW routeMW : List (H → H)) (h : H) : H :=
  applyStack routerMW (applyStack routeMW h)

/-- Instrumented handlers: a handler receives the log of wrappers that
ran so far and returns the extended log.  A tagged wrapper records its
own tag and then delegates to the next handler. -/
def tagWrap {α : Type} (t : α) : (List α → List α) → (List α → List α) :=
  fun next log => next (log ++ [t])

/-- The terminal handler records the marker `"handler"`. -/
def terminalTag : List String → List String :=
  fun log => log ++ ["handler"]

/-- An HTTP response, as far as the spec's behavioral-identity claim is
concerned: a status code and a body. -/
structure HttpResponse where
  status : Nat
  body : String
deriving DecidableEq, Repr

/- ------------------------------------------------------------------
Path join (`Router.getFullPath`, jett.go lines 185-190):

  fullPath := r.pathPrefix + subPath
  return httprouter.CleanPath(fullPath)

`httprouter.CleanPath` is an external collaborator (spec section 1),
not part of this repository, so it is modelled below.
------------------------------------------------------------------ -/

/-- Split a character list at every `'/'`. -/
def splitOnSlash : List Char → List (List Char)
  | [] => [[]]
  | '/' :: rest => [] :: splitOnSlash rest
  | c :: rest =>
    match splitOnSlash rest with
    | [] => [[c]]
    | s :: ss => (c :: s) :: ss

/-- One step of segment normalization: drop empty segments (duplicate
separators) and `.`, pop the stack on `..`, push anything else. -/
def segStep (stk : List (List Char)) (seg : List Char) : List (List Char) :=
  if seg = [] then stk
  else if seg = ['.'] then stk
  else if seg = ['.', '.'] then stk.dropLast
  else stk ++ [seg]

/-- Interleave a `'/'` between consecutive segments. -/
def joinSegs : List (List Char) → List Char
  | [] => []
  | [s] => s
  | s :: rest => s ++ '/' :: joinSegs rest

/-- Modelled from the spec: the external path canonicalizer consumed by
`Router.getFullPath` (`httprouter.CleanPath`, absent from this
repository) — it collapses repeated separators, resolves `.` and `..`
segments, guarantees a leading separator, and keeps a trailing
separator. -/
def cleanPath (s : String) : String :=
  let segs := (splitOnSlash s.data).foldl segStep []
  let core := '/' :: joinSegs segs
  if s.data ≠ [] ∧ s.data.getLast? = some '/' ∧ segs ≠ [] then
    String.mk (core ++ ['/'])
  else
    String.mk core

/-- Path join of `Router.getFullPath` (jett.go lines 185-190): plain
string concatenation of the router's path prefix with the sub-path,
then canonicalization. -/
def getFullPath (pathPfx subPath : String) : String :=
  cleanPath (pathPfx ++ subPath)

/- ------------------------------------------------------------------
Go slices and the Router (`Router.Use`, jett.go lines 125-127;
`Router.Subrouter`, lines 131-140).

The field `Router.middleware` is a Go slice.  `Use` is `append`,
`Subrouter` copies the slice header (`middleware: r.middleware`) —
pointer to the backing array, length and capacity — NOT the array
contents.  Go's `append` writes in place when spare capacity allows
and otherwise allocates a fresh array, growing small slices by
doubling (the Go runtime's `growslice` for element counts below 256).

Middleware values are identified by numeric labels; the heap maps an
array identifier to the array's contents.
------------------------------------------------------------------ -/

/-- A Go slice header: backing-array identifier, length, capacity. -/
structure GoSlice where
  arr : Nat
  len : Nat
  cap : Nat
deriving DecidableEq, Repr

/-- The store of backing arrays; index `a` holds array `a`'s cells. -/
abbrev Heap := List (List Nat)

/-- The elements a slice makes visible: the first `len` cells of its
backing array. -/
def sliceList (h : Heap) (s : GoSlice) : List Nat :=
  (h.getD s.arr []).take s.len

/-- Capacity chosen by the Go runtime when `append` must reallocate a
small slice: double the old capacity, and at least the needed length. -/
def growCap (oldCap needed : Nat) : Nat :=
  max (2 * oldCap) needed

/-- Semantics of Go's `append`: if the new length fits the capacity,
write the new elements in place after the current length; otherwise
copy the visible elements into a freshly allocated, larger array. -/
def appendSlice (h : Heap) (s : GoSlice) (xs : List Nat) : Heap × GoSlice :=
  let need := s.len + xs.length
  if need ≤ s.cap then
    let old := h.getD s.arr []
    let contents := old.take s.len ++ xs ++ old.drop need
    (h.set s.arr contents, ⟨s.arr, need, s.cap⟩)
  else
    let nc := growCap s.cap need
    let contents := (h.getD s.arr []).take s.len ++ xs
    (h ++ [contents ++ List.replicate (nc - need) 0], ⟨h.length, need, nc⟩)

/-- The Router state relevant here: its middleware slice and its path
prefix (jett.go lines 89-100, source field names
`middleware` and `pathPrefix`). -/
structure RouterM where
  middleware : GoSlice
  pathPfx : String
deriving DecidableEq, Repr

/-- The constructor `New()` (jett.go lines 103-117): nil middleware
slice, root path prefix. -/
def newRouter : RouterM :=
  ⟨⟨0, 0, 0⟩, "/"⟩

/-- The method `Router.Use` (jett.go lines 125-127):
`r.middleware = append(r.middleware, middleware...)`. -/
def use (h : Heap) (r : RouterM) (mws : List Nat) : Heap × RouterM :=
  let hs := appendSlice h r.middleware mws
  (hs.1, ⟨hs.2, r.pathPfx⟩)

/-- The method `Router.Subrouter` (jett.go lines 131-140): shares the
parent's slice header (`middleware: r.middleware`) and joins the path
prefix. -/
def subrouter (r : RouterM) (path : String) : RouterM :=
  ⟨r.middleware, getFullPath r.pathPfx path⟩

/-- The handler chain `Router.Handle` registers for a route, over
label-middleware: the router's stack (read from the heap) outermost,
then the route middleware, around an identity terminal handler, so
running it on `[]` lists the wrappers in execution order. -/
def registeredChain (h : Heap) (r : RouterM) (routeMW : List Nat) :
    List Nat → List Nat :=
  handleCompose ((sliceList h r.middleware).map tagWrap)
    (routeMW.map tagWrap) id

/- ------------------------------------------------------------------
Development server shutdown (`Router.runServer`, jett.go lines 293-367).

The serve goroutine treats `http.ErrServerClosed` as success and calls
`log.Fatalf` on any other listen error.  After the `select` on the
signal channel and `ctx.Done()`, the function prints, registers two
deferred functions (the "exited" print, then the cleanup closure that
runs `onShutdownFns` in a downward index loop, stops signal delivery
and cancels the timeout context), and calls `server.Shutdown`; a
non-nil `Shutdown` error hits `log.Fatalf`, which exits the process
without running the deferred functions.  Events are traced; cleanup
callbacks are identified by a string label.
------------------------------------------------------------------ -/

/-- An error returned by the platform HTTP server. -/
inductive HErr where
  | errServerClosed
  | errOther (msg : String)
deriving DecidableEq, Repr

/-- The two shutdown triggers raced by the `select` (jett.go lines
330-333): an OS termination signal, or cancellation of the
caller-supplied context. -/
inductive Trigger where
  | osSignal
  | ctxDone
deriving DecidableEq, Repr

/-- Observable events of the shutdown path. -/
inductive Ev where
  | shuttingDownMsg
  | drained
  | fatalShutdown
  | cleanupCall (name : String)
  | signalStopped
  | ctxCancelled
  | exitedMsg
deriving DecidableEq, Repr

/-- The downward loop of jett.go lines 351-354:
`for i := totalFns-1; i >= 0; i-- { onShutdownFns[i]() }`,
called with `n = fns.length`. -/
def runFnsDown (fns : List String) : Nat → List Ev
  | 0 => []
  | Nat.succ i => Ev.cleanupCall (fns.getD i "") :: runFnsDown fns i

/-- Body of the deferred closure at jett.go lines 344-360: run the
shutdown functions last-registered-first, stop signal delivery, cancel
the timeout context. -/
def cleanupDeferBody (fns : List String) : List Ev :=
  runFnsDown fns fns.length ++ [Ev.signalStopped, Ev.ctxCancelled]

/-- The tail of `runServer` after the shutdown trigger (jett.go lines
335-366).  The deferred stack at the `server.Shutdown` call holds the
"exited" print (line 337, pushed first) and the cleanup closure (line
344); on normal return Go runs them in reverse push order.
`log.Fatalf` on a `Shutdown` error exits without running them. -/
def runServerTail (fns : List String) (shutdownErr : Option HErr) :
    List Ev :=
  match shutdownErr with
  | some _ => [Ev.shuttingDownMsg, Ev.fatalShutdown]
  | none =>
      [Ev.shuttingDownMsg, Ev.drained]
        ++ ([[Ev.exitedMsg], cleanupDeferBody fns]).reverse.flatten

/-- Behavior of `runServer` from the `select` on (jett.go lines
330-366): both `case` arms are empty, so either trigger falls through
to the same tail.  The raced pair is modelled by passing in whichever
event fired first. -/
def runServerFromTrigger (t : Trigger) (fns : List String)
    (shutdownErr : Option HErr) : List Ev :=
  match t with
  | Trigger.osSignal => runServerTail fns shutdownErr
  | Trigger.ctxDone => runServerTail fns shutdownErr

/-- The check `err != nil && err != http.ErrServerClosed` that makes
the serve goroutine call `log.Fatalf` (jett.go lines 312-322). -/
def listenExitsFatal (err : Option HErr) : Bool :=
  match err with
  | none => false
  | some e => decide (e ≠ HErr.errServerClosed)

/-- A non-nil `server.Shutdown` error hits `log.Fatalf` (jett.go lines
362-365). -/
def shutdownExitsFatal (err : Option HErr) : Bool :=
  err.isSome

/- ------------------------------------------------------------------
RequestID middleware (middleware/request_id.go, src/unnamed/part_002):

  requestID := req.Header.Get(defaultRequestIDHeader)
  if requestID == "" {
    myid := atomic.AddUint64(&reqid, 1)
    requestID = fmt.Sprintf("%s-%06d", prefix, myid)
  }

The process-wide state is the fixed per-process prefix string and the
`uint64` counter (arithmetic modulo 2^64).  `%06d` prints the counter
in decimal, left-padded with zeros to at least six characters.
------------------------------------------------------------------ -/

/-- One more than the largest `uint64`: `atomic.AddUint64` wraps at
2^64. -/
def uint64Mod : Nat := 2 ^ 64

/-- The generator's process-wide state: `prefix` and `reqid`. -/
structure ReqIDState where
  pfx : String
  counter : Nat
deriving DecidableEq, Repr

/-- A decimal digit as a character. -/
def digitChar (d : Nat) : Char :=
  match d with
  | 0 => '0' | 1 => '1' | 2 => '2' | 3 => '3' | 4 => '4'
  | 5 => '5' | 6 => '6' | 7 => '7' | 8 => '8' | 9 => '9'
  | _ => '*'

/-- Inverse digit decoding, for stating round-trip facts. -/
def charToDigit (c : Char) : Nat :=
  match c with
  | '0' => 0 | '1' => 1 | '2' => 2 | '3' => 3 | '4' => 4
  | '5' => 5 | '6' => 6 | '7' => 7 | '8' => 8 | '9' => 9
  | _ => 0

/-- Most-significant-first decimal digits of `n`, with enough fuel. -/
def decCharsAux : Nat → Nat → List Char
  | 0, _ => []
  | Nat.succ fuel, n =>
    if n = 0 then []
    else decCharsAux fuel (n / 10) ++ [digitChar (n % 10)]

/-- Decimal rendering of a natural number (`%d`). -/
def decChars (n : Nat) : List Char :=
  if n = 0 then ['0'] else decCharsAux n n

/-- Zero-pad on the left to at least six characters (`%06d`). -/
def pad6 (cs : List Char) : List Char :=
  List.replicate (6 - cs.length) '0' ++ cs

/-- Formatting of `fmt.Sprintf("%s-%06d", pfx, n)`. -/
def fmtRequestID (pfx : String) (n : Nat) : String :=
  pfx ++ "-" ++ String.mk (pad6 (decChars n))

/-- The `RequestID` middleware's ID choice and state effect for one
request whose header carries `headerVal`: propagate a non-empty value
untouched, otherwise atomically bump the counter and mint
the prefix, a dash and the zero-padded counter. -/
def requestIDStep (st : ReqIDState) (headerVal : String) :
    String × ReqIDState :=
  if headerVal = "" then
    let c := (st.counter + 1) % uint64Mod
    (fmtRequestID st.pfx c, ⟨st.pfx, c⟩)
  else
    (headerVal, st)

/-- The numeric value of a most-significant-first decimal string. -/
def evalDec (cs : List Char) : Nat :=
  cs.foldl (fun acc c => 10 * acc + charToDigit c) 0

/-- Counter values observed by `n` consecutive mints (requests with an
empty request-ID header). -/
def mintSuffixes (st : ReqIDState) : Nat → List Nat
  | 0 => []
  | Nat.succ n =>
    let r := requestIDStep st ""
    r.2.counter :: mintSuffixes r.2 n

/-- Identifiers produced by `n` consecutive mints. -/
def mintIDs (st : ReqIDState) : Nat → List String
  | 0 => []
  | Nat.succ n =>
    let r := requestIDStep st ""
    r.1 :: mintIDs r.2 n

/- ==================================================================
THEOREMS
================================================================== -/

/- ----------------------- composition ---------------------------- -/

theorem applyStack_tagWrap {α : Type} (ts : List α)
    (h : List α → List α) (log : List α) :
    applyStack (ts.map tagWrap) h log = h (log ++ ts) := by
  induction ts generalizing log with
  | nil => simp [applyStack]
  | cons t ts ih =>
      simp only [List.map_cons, applyStack, tagWrap, ih, List.append_assoc,
        List.singleton_append]

/-- Claim C2: for a router whose middleware stack is `[A, B]` and a route
registered through `Handle` with route-middleware `[C, D]` around a
terminal handler, the composed handler runs exactly
`A, B, C, D, handler` on every request: router-level wrappers in
insertion order, then route-level wrappers in insertion order, then the
terminal handler. -/
theorem handle_execution_order (A B C D : String) (log : List String) :
    handleCompose [tagWrap A, tagWrap B] [tagWrap C, tagWrap D]
      terminalTag log = log ++ [A, B, C, D, "handler"] := by
  have h1 := applyStack_tagWrap [C, D] terminalTag
  have h2 := applyStack_tagWrap [A, B]
    (applyStack ([C, D].map tagWrap) terminalTag) log
  simp only [List.map_cons, List.map_nil] at h1 h2
  simp only [handleCompose, h2, h1, terminalTag, List.append_assoc]
  simp

/-- Claim C8: composing with zero router-level and zero route-level
wrappers is the identity: the handler registered by `Handle` returns,
for every request, the same status code and body as the terminal
handler invoked directly. -/
theorem handle_empty_compose_identity {Req : Type}
    (h : Req → HttpResponse) (req : Req) :
    handleCompose [] [] h req = h req ∧
      (handleCompose [] [] h req).status = (h req).status ∧
      (handleCompose [] [] h req).body = (h req).body :=
  ⟨rfl, rfl, rfl⟩

/- ------------------------- path join ---------------------------- -/

/-- Claim C3, counterexample: joining prefix `"/a"` with sub-path `"b"`
yields `"/ab"`, not the canonical `"/a/b"` the claim demands — the join
is bare concatenation and inserts no separator. -/
theorem getFullPath_no_separator_counterexample :
    getFullPath "/a" "b" = "/ab" ∧ getFullPath "/a" "b" ≠ "/a/b" := by
  constructor
  · rfl
  · decide

/-- Claim C3, amended: joining `"/a/"` with `"/b"` and `"/a//"` with
`"//b"` both canonicalize to `"/a/b"` (duplicate separators collapse,
leading slash guaranteed), but joining `"/a"` with `"b"` yields `"/ab"`:
the join is plain concatenation, so a sub-path without a leading slash
is fused into the last prefix segment rather than separated from it. -/
theorem getFullPath_canonicalizes :
    getFullPath "/a/" "/b" = "/a/b" ∧
      getFullPath "/a//" "//b" = "/a/b" ∧
      getFullPath "/a" "b" = "/ab" := by
  refine ⟨rfl, rfl, rfl⟩

/- ------------------- subrouter slice sharing -------------------- -/

theorem registeredChain_eq (h : Heap) (r : RouterM) (routeMW : List Nat) :
    registeredChain h r routeMW [] = sliceList h r.middleware ++ routeMW := by
  simp only [registeredChain, handleCompose, applyStack_tagWrap,
    List.nil_append, id_eq]

/-- Appending through slice `s` never rewrites the cells below `s.len`,
so any slice over the same array whose visible range is contained in
`s`'s (in particular `s`'s own snapshot) reads the same list after the
append, provided the backing array really holds `s.len` cells. -/
theorem sliceList_appendSlice (h : Heap) (s t : GoSlice) (xs : List Nat)
    (harr : t.arr = s.arr) (hlen : t.len ≤ s.len)
    (hwf : s.len ≤ (h.getD s.arr []).length) :
    sliceList (appendSlice h s xs).1 t = sliceList h t := by
  unfold appendSlice
  by_cases hc : s.len + xs.length ≤ s.cap
  · simp only [hc, if_pos, sliceList, harr]
    rw [List.getD_eq_getElem?_getD]
    rcases Nat.lt_or_ge s.arr h.length with hlt | hge
    · rw [List.getElem?_set_self (by exact hlt)]
      simp only [Option.getD_some]
      repeat
        rw [List.take_append_of_le_length
          (by simp only [List.length_take, List.length_append]; omega)]
      rw [List.take_take, Nat.min_eq_left hlen]
    · have h0 : (h.getD s.arr []) = [] := by
        rw [List.getD_eq_getElem?_getD, List.getElem?_eq_none (by simpa using hge)]
        rfl
      have hs0 : s.len = 0 := by rw [h0] at hwf; simpa using hwf
      have ht0 : t.len = 0 := Nat.le_zero.mp (hs0 ▸ hlen)
      simp [ht0]
  · simp only [hc, if_neg, not_false_iff, sliceList, harr]
    rcases Nat.lt_or_ge s.arr h.length with hlt | hge
    · rw [List.getD_eq_getElem?_getD, List.getD_eq_getElem?_getD,
        List.getElem?_append_left hlt]
    · have h0 : (h.getD s.arr []) = [] := by
        rw [List.getD_eq_getElem?_getD, List.getElem?_eq_none (by simpa using hge)]
        rfl
      have hs0 : s.len = 0 := by rw [h0] at hwf; simpa using hwf
      have ht0 : t.len = 0 := Nat.le_zero.mp (hs0 ▸ hlen)
      simp [ht0]

/-- Claim C1, amended: after `sr := r.Subrouter(p)`, a subsequent
`r.Use(B)` on the parent never rewrites the cells `sr`'s stack already
makes visible, so as long as no middleware is added to `sr` itself the
stack `sr` reads is exactly the parent's stack at the moment `Subrouter`
was called, and a route then registered on `sr` composes only those
wrappers, never `B`.  The subrouter however holds the parent's live
slice header (shared backing array), not a structural copy: once `sr`
grows into shared spare capacity, a later parent `Use` can overwrite an
entry of `sr`'s stack (see the counterexample). -/
theorem subrouter_stack_snapshot (h : Heap) (r : RouterM) (p : String)
    (bs routeMW : List Nat) (B : Nat)
    (hwf : r.middleware.len ≤ (h.getD r.middleware.arr []).length)
    (hB1 : B ∉ sliceList h r.middleware) (hB2 : B ∉ routeMW) :
    sliceList (use h r bs).1 (subrouter r p).middleware
        = sliceList h (subrouter r p).middleware ∧
      B ∉ registeredChain (use h r bs).1 (subrouter r p) routeMW [] := by
  have hpres : sliceList (use h r bs).1 r.middleware
      = sliceList h r.middleware :=
    sliceList_appendSlice h r.middleware r.middleware bs rfl (Nat.le_refl _) hwf
  have hsub : (subrouter r p).middleware = r.middleware := rfl
  refine ⟨by rw [hsub]; exact hpres, ?_⟩
  rw [registeredChain_eq, hsub, hpres]
  intro hmem
  rcases List.mem_append.mp hmem with hm | hm
  · exact hB1 hm
  · exact hB2 hm

theorem subrouter_stack_snapshot_witness :
    sliceList (use [[1]] ⟨⟨0, 1, 1⟩, "/"⟩ [2]).1
        (subrouter ⟨⟨0, 1, 1⟩, "/"⟩ "/x").middleware
      = sliceList [[1]] (subrouter ⟨⟨0, 1, 1⟩, "/"⟩ "/x").middleware ∧
      2 ∉ registeredChain (use [[1]] ⟨⟨0, 1, 1⟩, "/"⟩ [2]).1
        (subrouter ⟨⟨0, 1, 1⟩, "/"⟩ "/x") [3] [] :=
  subrouter_stack_snapshot [[1]] ⟨⟨0, 1, 1⟩, "/"⟩ "/x" [2] [3] 2
    (by decide) (by decide) (by decide)

/-- Claim C1, counterexample: the subrouter's stack is a live alias of
the parent's, not a structural copy.  Run: `r.Use(1)`, `r.Use(2)`,
`r.Use(3)` (the third append doubles the capacity to 4, leaving spare
room), `sr := r.Subrouter("/x")`, `sr.Use(4)` (writes in place into the
shared array), then `r.Use(5)` on the parent — which overwrites `sr`'s
cell: a route now registered on `sr` composes `5`, the wrapper appended
to the parent after `Subrouter` was called, contradicting the claim's
"never B". -/
theorem subrouter_alias_counterexample :
    let st1 := use [] newRouter [1]
    let st2 := use st1.1 st1.2 [2]
    let st3 := use st2.1 st2.2 [3]
    let sr := subrouter st3.2 "/x"
    let st4 := use st3.1 sr [4]
    let st5 := use st4.1 st3.2 [5]
    5 ∈ registeredChain st5.1 st4.2 [] [] ∧
      registeredChain st5.1 st4.2 [] [] = [1, 2, 3, 5] ∧
      sliceList st5.1 st4.2.middleware ≠ sliceList st4.1 st4.2.middleware := by
  decide

/- --------------------- shutdown lifecycle ----------------------- -/

theorem runFnsDown_eq_reverse (fns : List String) :
    ∀ n, n ≤ fns.length →
      runFnsDown fns n = ((fns.take n).reverse).map Ev.cleanupCall := by
  intro n
  induction n with
  | zero => intro _; simp [runFnsDown]
  | succ i ih =>
      intro hn
      have hi : i < fns.length := Nat.lt_of_succ_le hn
      have hgetd : fns.getD i "" = fns[i] := by
        rw [List.getD_eq_getElem?_getD, List.getElem?_eq_getElem hi]
        rfl
      rw [runFnsDown, ih (Nat.le_of_lt hi), hgetd, List.take_succ,
        List.getElem?_eq_getElem hi]
      simp only [Option.toList_some, List.reverse_append, List.reverse_cons,
        List.reverse_nil, List.nil_append, List.singleton_append,
        List.map_cons]

/-- Claim C4: with a drain that completes (`Shutdown` returns nil), the
shutdown trace runs every registered cleanup callback exactly once,
sequentially, in strict reverse registration order, after the drain
completes and before the routine returns (the trailing events are the
remaining deferred prints). -/
theorem cleanup_reverse_order (fns : List String) :
    runServerTail fns none
        = [Ev.shuttingDownMsg, Ev.drained]
          ++ fns.reverse.map Ev.cleanupCall
          ++ [Ev.signalStopped, Ev.ctxCancelled, Ev.exitedMsg] ∧
      ∀ s, (runServerTail fns none).count (Ev.cleanupCall s)
        = fns.count s := by
  have hrev : runFnsDown fns fns.length = fns.reverse.map Ev.cleanupCall := by
    rw [runFnsDown_eq_reverse fns fns.length (Nat.le_refl _), List.take_length]
  constructor
  · simp [runServerTail, cleanupDeferBody, hrev]
  · intro s
    simp only [runServerTail, cleanupDeferBody, hrev]
    simp [List.count_append, List.count_cons, List.count_map_of_injective _
      Ev.cleanupCall (fun a b => by simp), List.count_reverse]

/-- Claim C7: the transition out of `Running` is taken on whichever of
the two raced triggers — OS termination signal or caller-context
cancellation — fires first, and the entire subsequent shutdown trace is
identical no matter which one it was: both `select` arms fall through
to the same tail. -/
theorem shutdown_trigger_indifferent (t₁ t₂ : Trigger)
    (fns : List String) (err : Option HErr) :
    runServerFromTrigger t₁ fns err = runServerFromTrigger t₂ fns err := by
  cases t₁ <;> cases t₂ <;> rfl

/-- Claim C6: the listener reporting `http.ErrServerClosed` is treated
as success — no fatal exit, and the shutdown tail still runs to its
normal end — while any other listen/serve error, and any non-nil
graceful-shutdown error, makes the process terminate abnormally via
`log.Fatalf`. -/
theorem closed_is_success_other_fatal :
    listenExitsFatal (some HErr.errServerClosed) = false ∧
      listenExitsFatal none = false ∧
      (∀ e : HErr, e ≠ HErr.errServerClosed →
        listenExitsFatal (some e) = true) ∧
      shutdownExitsFatal none = false ∧
      (∀ e : HErr, shutdownExitsFatal (some e) = true) ∧
      (∀ fns : List String,
        (runServerTail fns none).getLast? = some Ev.exitedMsg) := by
  refine ⟨rfl, rfl, ?_, rfl, fun _ => rfl, ?_⟩
  · intro e he
    simp [listenExitsFatal, he]
  · intro fns
    have hsplit : runServerTail fns none
        = ([Ev.shuttingDownMsg, Ev.drained] ++ cleanupDeferBody fns)
          ++ [Ev.exitedMsg] := by
      simp [runServerTail]
    rw [hsplit, List.getLast?_concat]

theorem closed_is_success_other_fatal_witness :
    listenExitsFatal
        (some (HErr.errOther "listen tcp :8000: bind: address already in use"))
      = true ∧
      shutdownExitsFatal (some (HErr.errOther "context deadline exceeded"))
        = true ∧
      (runServerTail ["closeDB"] none).getLast? = some Ev.exitedMsg :=
  ⟨closed_is_success_other_fatal.2.2.1 _ (by decide),
    closed_is_success_other_fatal.2.2.2.2.1 _,
    closed_is_success_other_fatal.2.2.2.2.2 ["closeDB"]⟩

/- ----------------------- request IDs ---------------------------- -/

theorem charToDigit_digitChar (d : Nat) (h : d < 10) :
    charToDigit (digitChar d) = d := by
  interval_cases d <;> rfl

theorem foldlDec_replicate_zero (k : Nat) :
    List.foldl (fun acc c => 10 * acc + charToDigit c) 0
      (List.replicate k '0') = 0 := by
  induction k with
  | zero => rfl
  | succ k ih =>
      rw [List.replicate_succ, List.foldl_cons]
      have hz : 10 * 0 + charToDigit '0' = 0 := rfl
      rw [hz]
      exact ih

theorem evalDec_decCharsAux (fuel : Nat) :
    ∀ n, n ≤ fuel → evalDec (decCharsAux fuel n) = n := by
  induction fuel with
  | zero =>
      intro n hn
      have : n = 0 := Nat.le_zero.mp hn
      subst this
      rfl
  | succ fuel ih =>
      intro n hn
      by_cases h0 : n = 0
      · subst h0; rfl
      · rw [decCharsAux, if_neg h0]
        have hrec : evalDec (decCharsAux fuel (n / 10)) = n / 10 :=
          ih (n / 10) (by omega)
        rw [evalDec, List.foldl_append]
        rw [evalDec] at hrec
        rw [hrec, List.foldl_cons, List.foldl_nil,
          charToDigit_digitChar (n % 10) (Nat.mod_lt n (by omega))]
        omega

theorem evalDec_decChars (n : Nat) : evalDec (decChars n) = n := by
  by_cases h0 : n = 0
  · subst h0; rfl
  · rw [decChars, if_neg h0]
    exact evalDec_decCharsAux n n (Nat.le_refl n)

theorem evalDec_pad6 (cs : List Char) : evalDec (pad6 cs) = evalDec cs := by
  rw [pad6, evalDec, List.foldl_append, foldlDec_replicate_zero, evalDec]

theorem pad6_decChars_inj (a b : Nat)
    (h : pad6 (decChars a) = pad6 (decChars b)) : a = b := by
  have := congrArg evalDec h
  rwa [evalDec_pad6, evalDec_pad6, evalDec_decChars, evalDec_decChars] at this

theorem fmtRequestID_inj (pfx : String) (a b : Nat)
    (h : fmtRequestID pfx a = fmtRequestID pfx b) : a = b := by
  apply pad6_decChars_inj
  have hd := congrArg String.data h
  simp only [fmtRequestID, String.data_append] at hd
  exact List.append_cancel_left hd

theorem requestIDStep_mint (st : ReqIDState) :
    requestIDStep st ""
      = (fmtRequestID st.pfx ((st.counter + 1) % uint64Mod),
          ⟨st.pfx, (st.counter + 1) % uint64Mod⟩) := by
  rw [requestIDStep, if_pos rfl]

theorem mintIDs_eq_map (st : ReqIDState) (n : Nat) :
    mintIDs st n = (mintSuffixes st n).map (fmtRequestID st.pfx) := by
  induction n generalizing st with
  | zero => rfl
  | succ n ih =>
      rw [mintIDs, mintSuffixes]
      simp only [requestIDStep_mint]
      rw [ih]
      rfl

theorem mintSuffixes_no_wrap (p : String) :
    ∀ n c, c + n < uint64Mod →
      mintSuffixes ⟨p, c⟩ n = (List.range n).map (fun i => c + i + 1) := by
  intro n
  induction n with
  | zero => intro c _; rfl
  | succ n ih =>
      intro c hc
      have hlt : c + 1 < uint64Mod := by omega
      rw [mintSuffixes]
      simp only [requestIDStep_mint, Nat.mod_eq_of_lt hlt]
      rw [ih (c + 1) (by omega), List.range_succ_eq_map]
      simp only [List.map_cons, List.map_map]
      refine congrArg₂ _ (by omega) ?_
      apply List.map_congr_left
      intro i _
      simp [Function.comp]
      omega

/-- Claim C5: the request-ID policy is propagate-or-mint.  If the
request's header value is non-empty, the observed identifier is exactly
that value; if it is empty, the identifier is freshly minted as the
prefix, a dash, and the bumped counter rendered in decimal and
zero-padded to at least six digits.  The step is a total function: it
never blocks and never fails. -/
theorem requestID_propagate_or_mint (st : ReqIDState) (s : String) :
    (s ≠ "" → (requestIDStep st s).1 = s) ∧
      (s = "" → (requestIDStep st s).1
        = st.pfx ++ "-"
          ++ String.mk (pad6 (decChars ((st.counter + 1) % uint64Mod)))) ∧
      6 ≤ (pad6 (decChars ((st.counter + 1) % uint64Mod))).length := by
  refine ⟨?_, ?_, ?_⟩
  · intro hne
    rw [requestIDStep, if_neg hne]
  · intro he
    subst he
    rw [requestIDStep_mint]
    rfl
  · rw [pad6, List.length_append, List.length_replicate]
    omega

theorem requestID_propagate_or_mint_witness :
    (requestIDStep ⟨"host/b62random", 41⟩ "upstream-123").1 = "upstream-123" ∧
      (requestIDStep ⟨"host/b62random", 41⟩ "").1
        = "host/b62random" ++ "-"
          ++ String.mk (pad6 (decChars ((41 + 1) % uint64Mod))) :=
  ⟨(requestID_propagate_or_mint ⟨"host/b62random", 41⟩ "upstream-123").1
      (by decide),
    (requestID_propagate_or_mint ⟨"host/b62random", 41⟩ "").2.1 rfl⟩

/-- Claim C9: every mint bumps the shared counter by exactly one,
wrapping modulo 2^64, and a run of `n` mints that stays below the wrap
bound yields strictly increasing numeric suffixes and therefore
pairwise distinct identifiers. -/
theorem mint_monotone_distinct (p : String) (c n : Nat)
    (h : c + n < uint64Mod) :
    (requestIDStep ⟨p, c⟩ "").2.counter = (c + 1) % uint64Mod ∧
      List.Pairwise (· < ·) (mintSuffixes ⟨p, c⟩ n) ∧
      (mintIDs ⟨p, c⟩ n).Nodup := by
  have hsfx := mintSuffixes_no_wrap p n c h
  refine ⟨by rw [requestIDStep_mint], ?_, ?_⟩
  · rw [hsfx]
    exact (List.pairwise_lt_range n).map _ (fun a b hab => by omega)
  · rw [mintIDs_eq_map]
    have hnd : (mintSuffixes ⟨p, c⟩ n).Nodup := by
      rw [hsfx]
      exact ((List.pairwise_lt_range n).map _
        (fun a b hab => by omega)).imp Nat.ne_of_lt
    exact hnd.map (fun a b hab => fmtRequestID_inj p a b hab)

theorem mint_monotone_distinct_witness :
    (requestIDStep ⟨"h", 0⟩ "").2.counter = (0 + 1) % uint64Mod ∧
      List.Pairwise (· < ·) (mintSuffixes ⟨"h", 0⟩ 3) ∧
      (mintIDs ⟨"h", 0⟩ 3).Nodup :=
  mint_monotone_distinct "h" 0 3 (by decide)

/-- Claim C10: the propagate branch is effect-free on the generator's
shared state: a request arriving with a non-empty request-ID header
leaves the counter un-incremented and the prefix untouched. -/
theorem requestID_propagate_frame (st : ReqIDState) (s : String)
    (h : s ≠ "") :
    (requestIDStep st s).2 = st ∧
      (requestIDStep st s).2.counter = st.counter ∧
      (requestIDStep st s).2.pfx = st.pfx := by
  have hs : requestIDStep st s = (s, st) := by
    rw [requestIDStep, if_neg h]
  rw [hs]
  exact ⟨rfl, rfl, rfl⟩

theorem requestID_propagate_frame_witness :
    (requestIDStep ⟨"host/b62random", 7⟩ "upstream-9").2
      = ⟨"host/b62random", 7⟩ :=
  (requestID_propagate_frame ⟨"host/b62random", 7⟩ "upstream-9"
    (by decide)).1

end Jett
